import Mathlib

/-!
Shallow embedding of `pyphi/conf.py`: the `Option` descriptor (rendered here
as `ConfOption`, since `Option` is taken by Lean's core type), the `Config`
registry, and the `_override` scoped-override guard (rendered as `Override`).

Modelling conventions:
* Python dicts are insertion-ordered association lists (`Assoc.get?`,
  `Assoc.set`): assignment to an existing key replaces the first matching
  entry in place, preserving order, and appends otherwise.
* Exceptions are explicit. A mutating operation returns an `OpResult`: its
  final registry state, the list of hook invocations it performed, and an
  optional error. `Err.unknownSetting` stands for the unknown-name failures
  of the source (the `ValueError` of `Config.__setattr__` and the
  `AttributeError` of looking up an undeclared attribute),
  `Err.invalidValue` for the `ValueError` raised by `Option.__set__`,
  `Err.keyError` for a `KeyError` in `Option.__get__` (unreachable for a
  registry built by `Config.__init__`), and `Err.raised` for an arbitrary
  exception raised by user code inside a guarded body.
* `on_change` hooks: the only hook wired in the source,
  `configure_logging`, acts on an external collaborator (the logging
  subsystem) and never writes to the registry, so a hook is modelled by its
  observable invocation: a `HookEvent` recording the setting's name and the
  registry mapping (`obj.__dict__`) of the `Config` object passed to it.
-/

namespace Assoc

/-- Lookup of the first entry with the given key, as Python `d[k]` /
`k in d` on an insertion-ordered dict rendered as an association list. -/
def get? {κ α : Type} [DecidableEq κ] : List (κ × α) → κ → Option α
  | [], _ => none
  | (k', v) :: rest, k => if k' = k then some v else get? rest k

/-- Assignment `d[k] = v` on an insertion-ordered dict: replace the first
entry with key `k` in place, or append a new entry when `k` is absent. -/
def set {κ α : Type} [DecidableEq κ] : List (κ × α) → κ → α → List (κ × α)
  | [], k, v => [(k, v)]
  | (k', v') :: rest, k, v =>
      if k' = k then (k, v) :: rest else (k', v') :: set rest k v

/-- Key list of an association list, in order. -/
def keys {κ α : Type} (d : List (κ × α)) : List κ := d.map Prod.fst

end Assoc

/-- Scalar payloads of the dictionary-valued settings: `MONGODB_CONFIG` and
`REDIS_CONFIG` map string keys to strings and integers. -/
inductive Prim where
  | bool (b : Bool)
  | int (n : Int)
  | str (s : String)
deriving DecidableEq, Repr

/-- Configuration values: the option defaults in `conf.py` are booleans,
integers, strings, and string-keyed dictionaries (`MONGODB_CONFIG`,
`REDIS_CONFIG`), and `None` is a documented value for the logging levels. -/
inductive Value where
  | none
  | bool (b : Bool)
  | int (n : Int)
  | str (s : String)
  | dict (entries : List (String × Prim))
deriving DecidableEq, Repr

/-- Embeds the state of class `Option` (conf.py:144-153): the descriptor
declaring one configuration field. `values` is the optional allowed-value
collection (`values=None` by default), `on_change` records whether an
`on_change` callback was supplied (hooks are modelled by their invocation
trace, see the module comment), and `name` is `None` until `Config.__init__`
binds it. The `description` string plays no behavioural role and is omitted. -/
structure ConfOption where
  default : Value
  values : Option (List Value) := Option.none
  on_change : Bool := false
  name : Option String := Option.none
deriving DecidableEq, Repr

/-- Embeds the test `self.values and value not in self.values` guarding the
`ValueError` in `Option.__set__` (conf.py:170): by Python truthiness, a
`values` of `None` or of the empty list disables validation entirely. -/
def ConfOption.rejects (o : ConfOption) (value : Value) : Bool :=
  match o.values with
  | Option.none => false
  | Option.some vs => decide (vs ≠ [] ∧ value ∉ vs)

/-- Embeds the binding `v.name = k` performed by `Config.__init__`
(conf.py:186) on a descriptor: a plain, unguarded assignment to `name`. -/
def ConfOption.bindName (o : ConfOption) (n : String) : ConfOption :=
  { o with name := Option.some n }

/-- One observed hook invocation: the bound name of the setting whose
`on_change` fired, and the registry mapping (`obj.__dict__`) of the config
object passed to the hook at the moment of the call. -/
structure HookEvent where
  name : String
  state : List (String × Value)
deriving DecidableEq, Repr

/-- Equality of read results is decidable, so concrete reads can be settled
by evaluation. -/
instance {ε α : Type} [DecidableEq ε] [DecidableEq α] : DecidableEq (Except ε α) :=
  fun x y =>
    match x, y with
    | Except.ok a, Except.ok b =>
      if h : a = b then Decidable.isTrue (by rw [h])
      else Decidable.isFalse (by intro hh; cases hh; exact h rfl)
    | Except.error a, Except.error b =>
      if h : a = b then Decidable.isTrue (by rw [h])
      else Decidable.isFalse (by intro hh; cases hh; exact h rfl)
    | Except.ok _, Except.error _ => Decidable.isFalse (by intro hh; cases hh)
    | Except.error _, Except.ok _ => Decidable.isFalse (by intro hh; cases hh)

/-- Error taxonomy of the write/read paths; see the module comment. -/
inductive Err where
  | unknownSetting (name : String)
  | invalidValue (name : String) (value : Value)
  | keyError (name : String)
  | raised (msg : String)
deriving DecidableEq, Repr

/-- Embeds the state of a `Config` object: `options` is the class-level
table returned by `Config.options()` (conf.py:198-201), in declaration
order; `dict` is the instance `__dict__` holding the current values. -/
structure Config where
  options : List (String × ConfOption)
  dict : List (String × Value)
deriving DecidableEq, Repr

/-- Result of a mutating operation: the final registry state, the hook
invocations performed (in order), and the exception propagating out, if
any. Python mutates the shared `Config` in place; here the state is
threaded explicitly, and an operation that raises still reports the
mutations it made before raising. -/
structure OpResult where
  config : Config
  events : List HookEvent
  error : Option Err
deriving DecidableEq, Repr

/-- Embeds `Config.__init__` (conf.py:183-187): for each declared option,
bind its `name` to its key and write its default straight into `__dict__`.
The defaults bypass `__setattr__`, so they are neither validated against
`values` nor do they fire `on_change` hooks. -/
def Config.init (opts : List (String × ConfOption)) : Config :=
  { options := opts.map fun p => (p.1, p.2.bindName p.1),
    dict := opts.map fun p => (p.1, p.2.default) }

/-- Embeds `Option.__set__` (conf.py:168-178): validate the new value
against `values` (Python truthiness: `None` or an empty list disables the
check), raise `ValueError` without touching `__dict__` on failure,
otherwise commit `obj.__dict__[self.name] = value` and then invoke the
`on_change` hook, passing the config object — recorded as a `HookEvent`
carrying the post-commit mapping. -/
def ConfOption.set (o : ConfOption) (cfg : Config) (value : Value) : OpResult :=
  if o.rejects value then
    ⟨cfg, [], Option.some (Err.invalidValue (o.name.getD "") value)⟩
  else
    let cfg' : Config := { cfg with dict := Assoc.set cfg.dict (o.name.getD "") value }
    ⟨cfg', if o.on_change then [⟨o.name.getD "", cfg'.dict⟩] else [], Option.none⟩

/-- Embeds `Option.__get__` (conf.py:163-166) together with attribute
lookup on a `Config` instance: an undeclared name has no descriptor
(`AttributeError`, rendered `unknownSetting`); a declared name reads
`obj.__dict__[self.name]` (`KeyError`, rendered `keyError`, if the entry is
missing — unreachable after `Config.__init__`). -/
def Config.getattr (cfg : Config) (name : String) : Except Err Value :=
  match Assoc.get? cfg.options name with
  | Option.none => Except.error (Err.unknownSetting name)
  | Option.some o =>
    match Assoc.get? cfg.dict (o.name.getD "") with
    | Option.some v => Except.ok v
    | Option.none => Except.error (Err.keyError name)

/-- Embeds `Config.__setattr__` (conf.py:192-196): a name not in
`self.options()` raises `ValueError` (rendered `unknownSetting`) before
anything is written; otherwise the write is delegated to the declared
descriptor's `Option.__set__`. -/
def Config.setattr (cfg : Config) (name : String) (value : Value) : OpResult :=
  match Assoc.get? cfg.options name with
  | Option.none => ⟨cfg, [], Option.some (Err.unknownSetting name)⟩
  | Option.some o => o.set cfg value

/-- Embeds `Config.load_config_dict` (conf.py:206-209): apply `setattr` to
each key/value pair in order; the first exception propagates immediately,
leaving the writes already made committed and the remaining pairs
unapplied. -/
def Config.load_config_dict (cfg : Config) : List (String × Value) → OpResult
  | [] => ⟨cfg, [], Option.none⟩
  | (k, v) :: rest =>
    let r := cfg.setattr k v
    match r.error with
    | Option.some e => ⟨r.config, r.events, Option.some e⟩
    | Option.none =>
      let r' := r.config.load_config_dict rest
      ⟨r'.config, r.events ++ r'.events, r'.error⟩

/-- Embeds `Config.snapshot` (conf.py:216-217): `copy(self.__dict__)` is a
shallow copy of the instance mapping. At the level of this value model the
snapshot is the current mapping itself; the aliasing consequences of the
copy being shallow are modelled separately by `RefConfig`. -/
def Config.snapshot (cfg : Config) : List (String × Value) := cfg.dict

/-- Embeds the state of class `_override` (conf.py:241-256), the combined
decorator / context manager returned by `Config.override` (conf.py:219-238).
Python's `self.config` is a reference to the shared mutable registry; in
this pure model the current registry state is threaded into `enter`/`exit`
explicitly, and the guard keeps only its two mappings. -/
structure Override where
  new_conf : List (String × Value)
  initial_conf : List (String × Value)
deriving DecidableEq, Repr

/-- Embeds `_override.__init__` (conf.py:244-247): the restoration snapshot
`initial_conf = config.snapshot()` is captured at construction time, not on
entry. -/
def Override.init (cfg : Config) (new_conf : List (String × Value)) : Override :=
  ⟨new_conf, cfg.snapshot⟩

/-- Embeds `_override.__enter__` (conf.py:249-251): apply the overrides via
`load_config_dict`. No snapshot is taken here — it already happened in
`__init__`. -/
def Override.enter (ov : Override) (cfg : Config) : OpResult :=
  cfg.load_config_dict ov.new_conf

/-- Embeds `_override.__exit__` (conf.py:253-256): restore the snapshot via
`load_config_dict`. The method returns `False`, so it never suppresses the
body's exception; its `OpResult` reports only failures of the restore
itself. -/
def Override.exit (ov : Override) (cfg : Config) : OpResult :=
  cfg.load_config_dict ov.initial_conf

/-- Python `with` semantics for an already-constructed guard (also the
per-call behaviour of the `contextlib.ContextDecorator` wrapping, which runs
`with self` around each invocation): run `__enter__`; if it raises, neither
the body nor `__exit__` runs. Otherwise run the body, then always run
`__exit__`; since `__exit__` returns `False` the body's exception propagates
unchanged, and an exception raised by the restore itself replaces it. -/
def Override.runWith (ov : Override) (body : Config → OpResult) (cfg : Config) : OpResult :=
  let r1 := ov.enter cfg
  match r1.error with
  | Option.some e => ⟨r1.config, r1.events, Option.some e⟩
  | Option.none =>
    let rb := body r1.config
    let rx := ov.exit rb.config
    ⟨rx.config, r1.events ++ rb.events ++ rx.events,
      match rx.error with
      | Option.some e => Option.some e
      | Option.none => rb.error⟩

/-- Embeds one invocation of a callable wrapped by `@config.override(...)`:
the `_override` instance `ov` was built once, at decoration time, and each
call re-enters that same instance (so the restored state is the one captured
by `_override.__init__`, whenever that was). -/
def Override.callWrapped (ov : Override) (body : Config → OpResult) (cfg : Config) : OpResult :=
  ov.runWith body cfg

/-- Embeds the block form `with config.override(**new_conf): body` — the
guard is constructed by the `with` expression itself, so construction (and
with it the snapshot of `_override.__init__`) happens on the same registry
state as entry. -/
def Config.overrideWith (cfg : Config) (new_conf : List (String × Value))
    (body : Config → OpResult) : OpResult :=
  (Override.init cfg new_conf).runWith body cfg

/-- Writing `v` under key `k` is accepted unconditionally by the write path
over the option table `opts`: the key is declared, the declared descriptor's
`name` is bound to that key, and the value passes the descriptor's
validation. -/
def entryOK (opts : List (String × ConfOption)) (k : String) (v : Value) : Bool :=
  match Assoc.get? opts k with
  | Option.some o => decide (o.name = Option.some k) && !o.rejects v
  | Option.none => false

/-- Well-formedness of a registry state: declared names are distinct, the
instance mapping holds exactly the declared names in declaration order,
every current value passes its own descriptor's validation, and every
descriptor's `name` is bound to its key. `Config.init opts` satisfies this
exactly when `opts` has distinct names and each default passes its own
validation (defaults are written unvalidated). -/
def Config.wf (cfg : Config) : Bool :=
  decide ((cfg.options.map Prod.fst).Nodup) &&
  decide (cfg.dict.map Prod.fst = cfg.options.map Prod.fst) &&
  cfg.dict.all (fun p => entryOK cfg.options p.1 p.2) &&
  cfg.options.all (fun p => decide (p.2.name = Option.some p.1))

/-- The option table declares a hook for the setting named `k`. -/
def hookBearing (opts : List (String × ConfOption)) (k : String) : Bool :=
  match Assoc.get? opts k with
  | Option.some o => o.on_change
  | Option.none => false

/-- Reference-level view of the instance mapping, modelling the aliasing
behaviour of `Config.snapshot` (conf.py:216-217): in Python the mapping
binds each name to an object reference, and `copy(self.__dict__)` is a
shallow copy — it duplicates the name-to-reference mapping but shares the
referenced value objects. References are rendered as natural numbers into a
heap `List (Nat × Value)`. -/
structure RefConfig where
  dict : List (String × Nat)
deriving DecidableEq, Repr

/-- Embeds `Config.snapshot` at the reference level: the shallow copy
returns a new mapping holding the same object references. -/
def RefConfig.snapshot (cfg : RefConfig) : List (String × Nat) := cfg.dict

/-- Value a snapshot holds for a setting: dereference the snapshot's stored
reference in the current heap. -/
def snapValue (snap : List (String × Nat)) (heap : List (Nat × Value))
    (k : String) : Option Value :=
  match Assoc.get? snap k with
  | Option.some r => Assoc.get? heap r
  | Option.none => Option.none

/-- Embeds the commit `obj.__dict__[self.name] = value` of `Option.__set__`
at the reference level: rebind the name to the reference of the assigned
object (the heap is extended/updated separately with that object). -/
def RefConfig.rebind (cfg : RefConfig) (k : String) (r : Nat) : RefConfig :=
  ⟨Assoc.set cfg.dict k r⟩

/-- Embeds an in-place mutation of a mapping- or sequence-valued setting's
current value object (as in `config.MONGODB_CONFIG['port'] = 1234`): the
object the registry's entry refers to is updated in the heap, without
touching the name-to-reference mapping. -/
def RefConfig.mutateInPlace (cfg : RefConfig) (heap : List (Nat × Value))
    (k : String) (v : Value) : List (Nat × Value) :=
  match Assoc.get? cfg.dict k with
  | Option.some r => Assoc.set heap r v
  | Option.none => heap


/-- Concrete fixture: a LEVEL setting constrained to DEBUG/WARN/ERROR, as
in the spec's concrete scenario. -/
def levelOption : ConfOption :=
  { default := Value.str "WARN",
    values := Option.some [Value.str "DEBUG", Value.str "WARN", Value.str "ERROR"] }

/-- Concrete fixture registry declaring only LEVEL. -/
def levelConfig : Config := Config.init [("LEVEL", levelOption)]

/-- Concrete fixture registry declaring a single unconstrained setting A. -/
def aConfig : Config := Config.init [("A", { default := Value.int 0 })]

/-- A guarded body that succeeds and does nothing. -/
def idBody : Config → OpResult := fun c => ⟨c, [], Option.none⟩

/-- A guarded body that raises without touching the registry. -/
def failBody : Config → OpResult := fun c => ⟨c, [], Option.some (Err.raised "boom")⟩

/-- Concrete fixture option table: constrained LEVEL and unconstrained
RETRIES, as in the spec's concrete scenario. -/
def retriesOpts : List (String × ConfOption) :=
  [("LEVEL", levelOption), ("RETRIES", { default := Value.int 3 })]

/-- Concrete fixture option table: a hook-bearing LOG_FILE (as wired to
`configure_logging` in the source) next to an unconstrained, hookless A. -/
def hookOpts : List (String × ConfOption) :=
  [("LOG_FILE", { default := Value.str "pyphi.log", on_change := true }),
   ("A", { default := Value.int 0 })]

/-- Concrete fixture registry built from `hookOpts`. -/
def hookConfig : Config := Config.init hookOpts

/-- Concrete reference-level registry: MONGODB_CONFIG bound to object 0. -/
def mongoRef : RefConfig := ⟨[("MONGODB_CONFIG", 0)]⟩

/-- Concrete heap: object 0 is the dict-valued MONGODB_CONFIG default. -/
def mongoHeap : List (Nat × Value) := [(0, Value.dict [("port", Prim.int 27017)])]

example : (Config.init [("A", { default := Value.int 0 })]).dict = [("A", Value.int 0)] := by decide

example :
    ((Config.init [("A", { default := Value.int 0 })]).setattr "A" (Value.int 2)).config.dict
      = [("A", Value.int 2)] := by decide

example :
    ((Config.init [("A", { default := Value.int 0 })]).setattr "B" (Value.int 2)).error
      = Option.some (Err.unknownSetting "B") := by decide

/-- Reading a declared, bound setting returns the mapping's entry. -/
theorem Config.getattr_eq (cfg : Config) (k : String) (o : ConfOption) (v : Value)
    (hg : Assoc.get? cfg.options k = Option.some o)
    (hname : o.name = Option.some k)
    (hd : Assoc.get? cfg.dict k = Option.some v) :
    cfg.getattr k = Except.ok v := by
  have h1 : cfg.getattr k
      = (match Assoc.get? cfg.dict (o.name.getD "") with
          | Option.some w => Except.ok w
          | Option.none => Except.error (Err.keyError k)) := by
    unfold Config.getattr
    rw [hg]
  rw [h1, hname]
  simp [hd]

/-- A `setattr` that succeeds on a looked-up descriptor passed validation. -/
theorem Config.setattr_ok_not_rejects (cfg : Config) (k : String) (v : Value)
    (o : ConfOption) (hg : Assoc.get? cfg.options k = Option.some o)
    (hsucc : (cfg.setattr k v).error = Option.none) : o.rejects v = false := by
  unfold Config.setattr at hsucc
  rw [hg] at hsucc
  unfold ConfOption.set at hsucc
  by_cases hrej : o.rejects v
  · simp [hrej] at hsucc
  · exact Bool.eq_false_iff.2 hrej

namespace Assoc

theorem get?_set_self {κ α : Type} [DecidableEq κ] (d : List (κ × α)) (k : κ) (v : α) :
    get? (set d k v) k = some v := by
  induction d with
  | nil => simp [set, get?]
  | cons p rest ih =>
    obtain ⟨a, b⟩ := p
    by_cases h : a = k
    · simp [set, get?, h]
    · simp [set, get?, h, ih]

theorem get?_set_ne {κ α : Type} [DecidableEq κ] (d : List (κ × α)) (k k' : κ) (v : α)
    (h : k' ≠ k) : get? (set d k v) k' = get? d k' := by
  have h' : k ≠ k' := fun hh => h hh.symm
  induction d with
  | nil => simp [set, get?, h']
  | cons p rest ih =>
    obtain ⟨a, b⟩ := p
    by_cases hak : a = k
    · subst hak
      simp [set, get?, h']
    · simp [set, get?, hak, ih]

theorem set_cons_ne {κ α : Type} [DecidableEq κ] (d : List (κ × α)) (a k : κ) (b v : α)
    (h : a ≠ k) : set ((a, b) :: d) k v = (a, b) :: set d k v := by
  simp [set, h]

theorem set_cons_self {κ α : Type} [DecidableEq κ] (d : List (κ × α)) (k : κ) (b v : α) :
    set ((k, b) :: d) k v = (k, v) :: d := by
  simp [set]

theorem get?_mem {κ α : Type} [DecidableEq κ] {d : List (κ × α)} {k : κ} {v : α}
    (h : get? d k = some v) : (k, v) ∈ d := by
  induction d with
  | nil => simp [get?] at h
  | cons p rest ih =>
    obtain ⟨a, b⟩ := p
    by_cases hak : a = k
    · subst hak
      simp [get?] at h
      simp [h]
    · simp [get?, hak] at h
      exact List.mem_cons_of_mem _ (ih h)

theorem mem_keys_of_get? {κ α : Type} [DecidableEq κ] {d : List (κ × α)} {k : κ} {v : α}
    (h : get? d k = some v) : k ∈ keys d := by
  have := get?_mem h
  exact List.mem_map.2 ⟨(k, v), this, rfl⟩

theorem keys_cons {κ α : Type} (p : κ × α) (d : List (κ × α)) :
    keys (p :: d) = p.1 :: keys d := rfl

theorem keys_set_of_mem {κ α : Type} [DecidableEq κ] (d : List (κ × α)) (k : κ) (v : α)
    (h : k ∈ keys d) : keys (set d k v) = keys d := by
  induction d with
  | nil => simp [keys] at h
  | cons p rest ih =>
    obtain ⟨a, b⟩ := p
    by_cases hak : a = k
    · simp [set, hak, keys]
    · have hk : k ∈ keys rest := by
        rw [keys_cons] at h
        exact (List.mem_cons.1 h).resolve_left fun hh => hak hh.symm
      rw [set_cons_ne rest a k b v hak, keys_cons, keys_cons, ih hk]

theorem mem_set {κ α : Type} [DecidableEq κ] {d : List (κ × α)} {k : κ} {v : α}
    {p : κ × α} (h : p ∈ set d k v) : p = (k, v) ∨ p ∈ d := by
  induction d with
  | nil => simp [set] at h; exact Or.inl h
  | cons q rest ih =>
    obtain ⟨a, b⟩ := q
    by_cases hak : a = k
    · subst hak
      rw [set_cons_self] at h
      rcases List.mem_cons.1 h with h' | h'
      · exact Or.inl h'
      · exact Or.inr (List.mem_cons_of_mem _ h')
    · rw [set_cons_ne _ _ _ _ _ hak] at h
      rcases List.mem_cons.1 h with h' | h'
      · exact Or.inr (h' ▸ List.mem_cons_self _ _)
      · rcases ih h' with h'' | h''
        · exact Or.inl h''
        · exact Or.inr (List.mem_cons_of_mem _ h'')

end Assoc

/-- Unfolded characterization of registry well-formedness. -/
theorem Config.wf_iff (cfg : Config) :
    cfg.wf = true ↔
      (cfg.options.map Prod.fst).Nodup ∧
      cfg.dict.map Prod.fst = cfg.options.map Prod.fst ∧
      (∀ p ∈ cfg.dict, entryOK cfg.options p.1 p.2 = true) ∧
      (∀ p ∈ cfg.options, p.2.name = Option.some p.1) := by
  simp [Config.wf, List.all_eq_true, Bool.and_eq_true, decide_eq_true_eq, and_assoc]

/-- A write accepted by `entryOK` reduces to: look the descriptor up, pass
validation, commit at the declared key, and fire the hook if one is wired. -/
theorem Config.setattr_of_entryOK (cfg : Config) (k : String) (v : Value)
    (h : entryOK cfg.options k v = true) :
    cfg.setattr k v =
      ⟨⟨cfg.options, Assoc.set cfg.dict k v⟩,
        if hookBearing cfg.options k then [⟨k, Assoc.set cfg.dict k v⟩] else [],
        Option.none⟩ := by
  cases hg : Assoc.get? cfg.options k with
  | none =>
    unfold entryOK at h
    rw [hg] at h
    simp at h
  | some o =>
    unfold entryOK at h
    rw [hg] at h
    simp only [Bool.and_eq_true, decide_eq_true_eq, Bool.not_eq_true'] at h
    obtain ⟨hname, hrej⟩ := h
    unfold Config.setattr ConfOption.set hookBearing
    rw [hg]
    simp [hrej, hname]

/-- `setattr` never changes the option table. -/
theorem Config.setattr_options (cfg : Config) (k : String) (v : Value) :
    (cfg.setattr k v).config.options = cfg.options := by
  unfold Config.setattr
  cases hg : Assoc.get? cfg.options k with
  | none => rfl
  | some o =>
    unfold ConfOption.set
    by_cases hrej : o.rejects v
    · simp [hrej]
    · simp [hrej]

/-- A `setattr` that raises has done nothing: the registry is unchanged and
no hook fired (both failure sites precede the commit). -/
theorem Config.setattr_err (cfg : Config) (k : String) (v : Value) (e : Err)
    (h : (cfg.setattr k v).error = Option.some e) :
    cfg.setattr k v = ⟨cfg, [], Option.some e⟩ := by
  cases hg : Assoc.get? cfg.options k with
  | none =>
    unfold Config.setattr at h ⊢
    rw [hg] at h ⊢
    simp at h
    simp [← h]
  | some o =>
    unfold Config.setattr at h ⊢
    rw [hg] at h ⊢
    unfold ConfOption.set at h ⊢
    by_cases hrej : o.rejects v
    · simp [hrej] at h ⊢
      exact h
    · simp [hrej] at h

/-- Bulk load never changes the option table. -/
theorem Config.load_options (cfg : Config) (ws : List (String × Value)) :
    (cfg.load_config_dict ws).config.options = cfg.options := by
  induction ws generalizing cfg with
  | nil => rfl
  | cons p rest ih =>
    obtain ⟨k, v⟩ := p
    simp only [Config.load_config_dict]
    cases he : (cfg.setattr k v).error with
    | some e => exact Config.setattr_options cfg k v
    | none => rw [ih]; exact Config.setattr_options cfg k v

/-- A bulk load whose every entry is accepted raises nothing. -/
theorem Config.load_ok (cfg : Config) (ws : List (String × Value))
    (h : ∀ p ∈ ws, entryOK cfg.options p.1 p.2 = true) :
    (cfg.load_config_dict ws).error = Option.none := by
  induction ws generalizing cfg with
  | nil => rfl
  | cons p rest ih =>
    obtain ⟨k, v⟩ := p
    have hr := Config.setattr_of_entryOK cfg k v (h (k, v) (List.mem_cons_self _ _))
    simp only [Config.load_config_dict, hr]
    exact ih _ fun q hq => h q (List.mem_cons_of_mem _ hq)

/-- A bulk load of accepted entries none of which touches the key `k`
leaves the entry `(k, v)` at the head of the mapping in place and otherwise
acts as it would without that entry. -/
theorem Config.load_passthrough (opts : List (String × ConfOption)) (k : String)
    (v : Value) (tgt : List (String × Value)) (ws : List (String × Value))
    (hok : ∀ p ∈ ws, entryOK opts p.1 p.2 = true) (hk : ∀ p ∈ ws, p.1 ≠ k) :
    ((⟨opts, (k, v) :: tgt⟩ : Config).load_config_dict ws).config.dict
      = (k, v) :: ((⟨opts, tgt⟩ : Config).load_config_dict ws).config.dict := by
  induction ws generalizing tgt with
  | nil => rfl
  | cons p rest ih =>
    obtain ⟨a, b⟩ := p
    have hab : entryOK opts a b = true := hok (a, b) (List.mem_cons_self _ _)
    have hak : a ≠ k := hk (a, b) (List.mem_cons_self _ _)
    have hr1 := Config.setattr_of_entryOK ⟨opts, (k, v) :: tgt⟩ a b hab
    have hr2 := Config.setattr_of_entryOK ⟨opts, tgt⟩ a b hab
    simp only [Config.load_config_dict, hr1, hr2]
    rw [Assoc.set_cons_ne tgt k a v b fun hh => hak hh.symm]
    exact ih (Assoc.set tgt a b) (fun q hq => hok q (List.mem_cons_of_mem _ hq))
      (fun q hq => hk q (List.mem_cons_of_mem _ hq))

/-- Restoring a full snapshot: loading a mapping `d` whose entries are all
accepted into a registry whose mapping has exactly the keys of `d`, in the
same order and without duplicates, reproduces `d` exactly. -/
theorem Config.load_restore (opts : List (String × ConfOption))
    (tgt d : List (String × Value))
    (hkeys : tgt.map Prod.fst = d.map Prod.fst)
    (hnd : (d.map Prod.fst).Nodup)
    (hok : ∀ p ∈ d, entryOK opts p.1 p.2 = true) :
    ((⟨opts, tgt⟩ : Config).load_config_dict d).config.dict = d := by
  induction d generalizing tgt with
  | nil =>
    have : tgt = [] := List.map_eq_nil_iff.1 hkeys
    rw [this]
    rfl
  | cons p rest ih =>
    obtain ⟨k, v⟩ := p
    cases tgt with
    | nil => simp at hkeys
    | cons q tgt' =>
      obtain ⟨k', w⟩ := q
      simp only [List.map_cons, List.cons.injEq] at hkeys
      obtain ⟨hk1, hkeys'⟩ := hkeys
      subst hk1
      have hr := Config.setattr_of_entryOK ⟨opts, (k', w) :: tgt'⟩ k' v
        (hok (k', v) (List.mem_cons_self _ _))
      simp only [Config.load_config_dict, hr, Assoc.set_cons_self]
      have hnotin : k' ∉ rest.map Prod.fst := (List.nodup_cons.1 hnd).1
      rw [Config.load_passthrough opts k' v tgt' rest
        (fun q hq => hok q (List.mem_cons_of_mem _ hq))
        (fun q hq hh => hnotin (hh ▸ List.mem_map.2 ⟨q, hq, rfl⟩))]
      rw [ih tgt' hkeys' (List.nodup_cons.1 hnd).2
        (fun q hq => hok q (List.mem_cons_of_mem _ hq))]

/-- The hooks fired by a bulk load of accepted entries are exactly those of
its hook-bearing keys, in order. -/
theorem Config.load_events (cfg : Config) (ws : List (String × Value))
    (hok : ∀ p ∈ ws, entryOK cfg.options p.1 p.2 = true) :
    (cfg.load_config_dict ws).events.map HookEvent.name
      = (ws.map Prod.fst).filter (fun k => hookBearing cfg.options k) := by
  induction ws generalizing cfg with
  | nil => rfl
  | cons p rest ih =>
    obtain ⟨k, v⟩ := p
    have hr := Config.setattr_of_entryOK cfg k v (hok (k, v) (List.mem_cons_self _ _))
    simp only [Config.load_config_dict, hr, List.map_cons, List.filter_cons]
    have hrest := ih ⟨cfg.options, Assoc.set cfg.dict k v⟩
      (fun q hq => hok q (List.mem_cons_of_mem _ hq))
    by_cases hb : hookBearing cfg.options k
    · simp [hb, hrest]
    · simp [hb, hrest]

/-- Every write — accepted or raising — preserves registry
well-formedness: a raising write changes nothing, and an accepted write
stores a value that passed its own descriptor's validation under a declared
key. -/
theorem Config.setattr_wf (cfg : Config) (k : String) (v : Value)
    (h : cfg.wf = true) : (cfg.setattr k v).config.wf = true := by
  obtain ⟨hnd, hkeys, hvals, hnames⟩ := (Config.wf_iff cfg).1 h
  cases he : (cfg.setattr k v).error with
  | some e => rw [Config.setattr_err cfg k v e he]; exact h
  | none =>
    have hok : entryOK cfg.options k v = true := by
      unfold Config.setattr at he
      cases hg : Assoc.get? cfg.options k with
      | none => rw [hg] at he; simp at he
      | some o =>
        rw [hg] at he
        unfold ConfOption.set at he
        by_cases hrej : o.rejects v
        · simp [hrej] at he
        · unfold entryOK
          rw [hg]
          have hmem := Assoc.get?_mem hg
          simp [hrej]
          exact hnames (k, o) hmem
    rw [Config.setattr_of_entryOK cfg k v hok]
    apply (Config.wf_iff _).2
    refine ⟨hnd, ?_, ?_, hnames⟩
    · have hkmem : k ∈ Assoc.keys cfg.dict := by
        unfold entryOK at hok
        cases hg : Assoc.get? cfg.options k with
        | none => rw [hg] at hok; simp at hok
        | some o =>
          have : k ∈ cfg.options.map Prod.fst := Assoc.mem_keys_of_get? hg
          unfold Assoc.keys
          rw [hkeys]
          exact this
      have := Assoc.keys_set_of_mem cfg.dict k v hkmem
      unfold Assoc.keys at this
      rw [this]
      exact hkeys
    · intro p hp
      rcases Assoc.mem_set hp with h' | h'
      · rw [h']; exact hok
      · exact hvals p h'

/-- Bulk load preserves registry well-formedness, whether or not it
raises. -/
theorem Config.load_wf (cfg : Config) (ws : List (String × Value))
    (h : cfg.wf = true) : (cfg.load_config_dict ws).config.wf = true := by
  induction ws generalizing cfg with
  | nil => exact h
  | cons p rest ih =>
    obtain ⟨k, v⟩ := p
    simp only [Config.load_config_dict]
    cases he : (cfg.setattr k v).error with
    | some e => exact Config.setattr_wf cfg k v h
    | none => exact ih _ (Config.setattr_wf cfg k v h)

/-- Keys of a well-formed registry's mapping are exactly the declared
names, so a load into it keeps that key list. -/
theorem Config.load_dict_keys (cfg : Config) (ws : List (String × Value))
    (h : cfg.wf = true) :
    (cfg.load_config_dict ws).config.dict.map Prod.fst = cfg.dict.map Prod.fst := by
  have h1 := (Config.wf_iff _).1 (Config.load_wf cfg ws h)
  rw [h1.2.1, Config.load_options]
  exact ((Config.wf_iff cfg).1 h).2.1.symm

/-- C3: for a declared setting whose descriptor has an `on_change` hook, a
successful `set` first commits the value into the registry's mapping and
only then synchronously invokes the hook, passing the registry itself: the
operation performs exactly one hook invocation, carrying the post-commit
mapping, and on the state passed to the hook `get` already returns the
newly written value. -/
theorem c3_hook_after_commit (cfg : Config) (k : String) (v : Value) (o : ConfOption)
    (hg : Assoc.get? cfg.options k = Option.some o)
    (hname : o.name = Option.some k)
    (hhook : o.on_change = true)
    (hsucc : (cfg.setattr k v).error = Option.none) :
    (cfg.setattr k v).events = [⟨k, (cfg.setattr k v).config.dict⟩] ∧
    (cfg.setattr k v).config.getattr k = Except.ok v := by
  have hrej := Config.setattr_ok_not_rejects cfg k v o hg hsucc
  have hok : entryOK cfg.options k v = true := by
    unfold entryOK
    rw [hg]
    simp [hname, hrej]
  have hb : hookBearing cfg.options k = true := by
    unfold hookBearing
    rw [hg]
    exact hhook
  rw [Config.setattr_of_entryOK cfg k v hok]
  constructor
  · simp [hb]
  · exact Config.getattr_eq ⟨cfg.options, Assoc.set cfg.dict k v⟩ k o v hg hname
      (Assoc.get?_set_self _ _ _)

/-- C3 witness: a hook-bearing setting written successfully fires one hook
that sees the committed value as current. -/
theorem c3_witness :
    ((Config.init [("LOG_FILE", { default := Value.str "pyphi.log", on_change := true })]).setattr
        "LOG_FILE" (Value.str "other.log")).events
      = [⟨"LOG_FILE", [("LOG_FILE", Value.str "other.log")]⟩] ∧
    ((Config.init [("LOG_FILE", { default := Value.str "pyphi.log", on_change := true })]).setattr
        "LOG_FILE" (Value.str "other.log")).config.getattr "LOG_FILE"
      = Except.ok (Value.str "other.log") :=
  c3_hook_after_commit _ "LOG_FILE" (Value.str "other.log")
    { default := Value.str "pyphi.log", on_change := true, name := Option.some "LOG_FILE" }
    (by decide) rfl rfl (by decide)

/-- C4 counterexample: the validation test of `Option.__set__` uses Python
truthiness (`if self.values and value not in self.values`), so a declared
setting whose `allowedValues` is present but empty accepts every value: the
write of a non-member commits and raises nothing, contradicting the claim
for non-absent allowed-value sets. -/
theorem c4_counterexample :
    (Assoc.get? (Config.init
        [("X", { default := Value.int 0, values := Option.some [] })]).options "X").map
        ConfOption.values = Option.some (Option.some []) ∧
    Value.int 5 ∉ ([] : List Value) ∧
    ((Config.init [("X", { default := Value.int 0, values := Option.some [] })]).setattr "X"
        (Value.int 5)).error = Option.none ∧
    ((Config.init [("X", { default := Value.int 0, values := Option.some [] })]).setattr "X"
        (Value.int 5)).config.getattr "X" = Except.ok (Value.int 5) := by decide

/-- C4 (amended): for a declared setting whose descriptor has a non-absent
and non-empty allowedValues list, writing a non-member fails with the
invalid-value error and leaves the registry untouched with no hook run,
while writing a member succeeds and a subsequent `get` returns it. -/
theorem c4_allowed_values_enforced (cfg : Config) (k : String) (v a : Value)
    (o : ConfOption) (vs : List Value)
    (hg : Assoc.get? cfg.options k = Option.some o)
    (hname : o.name = Option.some k)
    (hvs : o.values = Option.some vs) (hne : vs ≠ []) :
    (v ∉ vs → cfg.setattr k v = ⟨cfg, [], Option.some (Err.invalidValue k v)⟩) ∧
    (a ∈ vs → (cfg.setattr k a).error = Option.none ∧
      (cfg.setattr k a).config.getattr k = Except.ok a) := by
  constructor
  · intro hmem
    have hrej : o.rejects v = true := by
      unfold ConfOption.rejects
      rw [hvs]
      show decide (vs ≠ [] ∧ v ∉ vs) = true
      simp [hne, hmem]
    unfold Config.setattr
    rw [hg]
    show o.set cfg v = _
    unfold ConfOption.set
    simp [hrej, hname]
  · intro hmem
    have hrej : o.rejects a = false := by
      unfold ConfOption.rejects
      rw [hvs]
      show decide (vs ≠ [] ∧ a ∉ vs) = false
      simp [hmem]
    have hok : entryOK cfg.options k a = true := by
      unfold entryOK
      rw [hg]
      simp [hname, hrej]
    rw [Config.setattr_of_entryOK cfg k a hok]
    exact ⟨rfl, Config.getattr_eq ⟨cfg.options, Assoc.set cfg.dict k a⟩ k o a hg hname
      (Assoc.get?_set_self _ _ _)⟩

/-- C4 witness: with allowed values DEBUG/WARN/ERROR, writing INFO fails
with the invalid-value error leaving the prior value readable, and writing
DEBUG succeeds and is read back. -/
theorem c4_witness :
    (levelConfig.setattr "LEVEL" (Value.str "INFO")
      = ⟨levelConfig, [], Option.some (Err.invalidValue "LEVEL" (Value.str "INFO"))⟩) ∧
    ((levelConfig.setattr "LEVEL" (Value.str "DEBUG")).error = Option.none ∧
      (levelConfig.setattr "LEVEL" (Value.str "DEBUG")).config.getattr "LEVEL"
        = Except.ok (Value.str "DEBUG")) :=
  ⟨(c4_allowed_values_enforced levelConfig "LEVEL" (Value.str "INFO") (Value.str "DEBUG")
      (levelOption.bindName "LEVEL")
      [Value.str "DEBUG", Value.str "WARN", Value.str "ERROR"]
      (by decide) rfl rfl (by decide)).1 (by decide),
   (c4_allowed_values_enforced levelConfig "LEVEL" (Value.str "INFO") (Value.str "DEBUG")
      (levelOption.bindName "LEVEL")
      [Value.str "DEBUG", Value.str "WARN", Value.str "ERROR"]
      (by decide) rfl rfl (by decide)).2 (by decide)⟩

/-- C5: for a name not declared by any descriptor, `get` and `set` both
fail with the unknown-setting error, the rejected `set` returns the
registry unchanged with no hook fired, and no write operation ever changes
the option table, so the set of writable names stays exactly the declared
names. -/
theorem c5_unknown_setting (cfg : Config) (k : String) (v : Value)
    (h : Assoc.get? cfg.options k = Option.none) :
    cfg.getattr k = Except.error (Err.unknownSetting k) ∧
    cfg.setattr k v = ⟨cfg, [], Option.some (Err.unknownSetting k)⟩ ∧
    (∀ k' v', (cfg.setattr k' v').config.options = cfg.options) ∧
    (∀ ws, (cfg.load_config_dict ws).config.options = cfg.options) := by
  refine ⟨?_, ?_, fun k' v' => Config.setattr_options cfg k' v',
    fun ws => Config.load_options cfg ws⟩
  · unfold Config.getattr
    rw [h]
  · unfold Config.setattr
    rw [h]

/-- C5 witness: an undeclared name fails on read and on write, and the
write leaves the registry exactly as it was. -/
theorem c5_witness :
    (Config.init [("PRECISION", { default := Value.int 6 })]).getattr "MEASURE"
      = Except.error (Err.unknownSetting "MEASURE") ∧
    (Config.init [("PRECISION", { default := Value.int 6 })]).setattr "MEASURE" (Value.int 1)
      = ⟨Config.init [("PRECISION", { default := Value.int 6 })], [],
          Option.some (Err.unknownSetting "MEASURE")⟩ :=
  ⟨(c5_unknown_setting _ "MEASURE" (Value.int 1) (by decide)).1,
   (c5_unknown_setting _ "MEASURE" (Value.int 1) (by decide)).2.1⟩

/-- Guard execution when entry and the restore both succeed: run body, then
restore, and report the body's own error (the exit, returning `False`, never
masks it). -/
theorem Override.runWith_eq (ov : Override) (body : Config → OpResult) (cfg : Config)
    (h1 : (ov.enter cfg).error = Option.none)
    (h2 : (ov.exit (body (ov.enter cfg).config).config).error = Option.none) :
    ov.runWith body cfg
      = ⟨(ov.exit (body (ov.enter cfg).config).config).config,
         (ov.enter cfg).events ++ (body (ov.enter cfg).config).events
           ++ (ov.exit (body (ov.enter cfg).config).config).events,
         (body (ov.enter cfg).config).error⟩ := by
  unfold Override.runWith
  simp only [h1, h2]

/-- C8: bulk load applies writes in the order given; at the first failing
key the failure propagates immediately: all earlier keys remain committed
with their hooks fired (no rollback), and the failing key and all later
keys are not applied. -/
theorem c8_load_first_failure (cfg : Config) (pre post : List (String × Value))
    (k : String) (v : Value) (e : Err)
    (hpre : (cfg.load_config_dict pre).error = Option.none)
    (hfail : ((cfg.load_config_dict pre).config.setattr k v).error = Option.some e) :
    cfg.load_config_dict (pre ++ (k, v) :: post)
      = ⟨(cfg.load_config_dict pre).config, (cfg.load_config_dict pre).events,
          Option.some e⟩ := by
  induction pre generalizing cfg with
  | nil =>
    have h1 := Config.setattr_err _ k v e hfail
    simp only [List.nil_append, Config.load_config_dict] at h1 ⊢
    rw [h1]
  | cons p rest ih =>
    obtain ⟨a, b⟩ := p
    cases he : (cfg.setattr a b).error with
    | some e' =>
      have : (cfg.load_config_dict ((a, b) :: rest)).error = Option.some e' := by
        simp only [Config.load_config_dict, he]
      rw [this] at hpre
      simp at hpre
    | none =>
      have hstep : ∀ ws : List (String × Value),
          cfg.load_config_dict ((a, b) :: ws)
            = ⟨((cfg.setattr a b).config.load_config_dict ws).config,
               (cfg.setattr a b).events
                 ++ ((cfg.setattr a b).config.load_config_dict ws).events,
               ((cfg.setattr a b).config.load_config_dict ws).error⟩ := by
        intro ws
        simp only [Config.load_config_dict, he]
      have hpre' : ((cfg.setattr a b).config.load_config_dict rest).error = Option.none := by
        rw [hstep rest] at hpre
        exact hpre
      have hfail' : (((cfg.setattr a b).config.load_config_dict rest).config.setattr k v).error
          = Option.some e := by
        rw [hstep rest] at hfail
        exact hfail
      calc cfg.load_config_dict (((a, b) :: rest) ++ (k, v) :: post)
          = cfg.load_config_dict ((a, b) :: (rest ++ (k, v) :: post)) := by
            rw [List.cons_append]
        _ = ⟨((cfg.setattr a b).config.load_config_dict (rest ++ (k, v) :: post)).config,
             (cfg.setattr a b).events
               ++ ((cfg.setattr a b).config.load_config_dict (rest ++ (k, v) :: post)).events,
             ((cfg.setattr a b).config.load_config_dict (rest ++ (k, v) :: post)).error⟩ :=
            hstep _
        _ = ⟨(cfg.load_config_dict ((a, b) :: rest)).config,
             (cfg.load_config_dict ((a, b) :: rest)).events, Option.some e⟩ := by
            rw [ih _ hpre' hfail', hstep rest]

/-- C8 witness: loading RETRIES=5, LEVEL=INFO, RETRIES=9 in order stops at
the invalid LEVEL write: RETRIES=5 stays committed, the error is the
invalid-value failure, and RETRIES=9 is never applied. -/
theorem c8_witness :
    (Config.init retriesOpts).load_config_dict
        [("RETRIES", Value.int 5), ("LEVEL", Value.str "INFO"), ("RETRIES", Value.int 9)]
      = ⟨((Config.init retriesOpts).load_config_dict [("RETRIES", Value.int 5)]).config,
         ((Config.init retriesOpts).load_config_dict [("RETRIES", Value.int 5)]).events,
         Option.some (Err.invalidValue "LEVEL" (Value.str "INFO"))⟩ :=
  c8_load_first_failure (Config.init retriesOpts) [("RETRIES", Value.int 5)]
    [("RETRIES", Value.int 9)] "LEVEL" (Value.str "INFO")
    (Err.invalidValue "LEVEL" (Value.str "INFO")) (by decide) (by decide)

/-- C6: starting from a well-formed initialized registry (distinct names,
defaults passing their own validation), after any successful sequence of
writes producing state S, taking `snapshot`, doing any further successful
writes, and then bulk-loading the snapshot raises nothing and restores the
mapping to exactly S. -/
theorem c6_snapshot_restore (opts : List (String × ConfOption))
    (ws1 ws2 : List (String × Value))
    (hwf : (Config.init opts).wf = true)
    (h1 : ((Config.init opts).load_config_dict ws1).error = Option.none)
    (h2 : (((Config.init opts).load_config_dict ws1).config.load_config_dict ws2).error
      = Option.none) :
    ((((Config.init opts).load_config_dict ws1).config.load_config_dict
        ws2).config.load_config_dict
        (((Config.init opts).load_config_dict ws1).config.snapshot)).error = Option.none ∧
    ((((Config.init opts).load_config_dict ws1).config.load_config_dict
        ws2).config.load_config_dict
        (((Config.init opts).load_config_dict ws1).config.snapshot)).config.dict
      = ((Config.init opts).load_config_dict ws1).config.dict := by
  have hSwf := Config.load_wf (Config.init opts) ws1 hwf
  have hTwf := Config.load_wf ((Config.init opts).load_config_dict ws1).config ws2 hSwf
  obtain ⟨hSnd, hSkeys, hSvals, hSnames⟩ := (Config.wf_iff _).1 hSwf
  obtain ⟨hTnd, hTkeys, hTvals, hTnames⟩ := (Config.wf_iff _).1 hTwf
  have hopts :
      (((Config.init opts).load_config_dict ws1).config.load_config_dict ws2).config.options
        = ((Config.init opts).load_config_dict ws1).config.options :=
    Config.load_options _ _
  have hok : ∀ p ∈ ((Config.init opts).load_config_dict ws1).config.dict,
      entryOK
        (((Config.init opts).load_config_dict ws1).config.load_config_dict ws2).config.options
        p.1 p.2 = true := by
    intro p hp
    rw [hopts]
    exact hSvals p hp
  constructor
  · exact Config.load_ok _ _ hok
  · exact Config.load_restore
      (((Config.init opts).load_config_dict ws1).config.load_config_dict ws2).config.options
      (((Config.init opts).load_config_dict ws1).config.load_config_dict ws2).config.dict
      ((Config.init opts).load_config_dict ws1).config.dict
      (by rw [hTkeys, hopts]; exact hSkeys.symm)
      (by rw [hSkeys]; exact hSnd)
      hok

/-- C6 witness: write RETRIES=5, snapshot, write RETRIES=10 and
LEVEL=DEBUG, reload the snapshot: every field is back to its snapshot
value. -/
theorem c6_witness :
    ((((Config.init retriesOpts).load_config_dict
        [("RETRIES", Value.int 5)]).config.load_config_dict
        [("RETRIES", Value.int 10), ("LEVEL", Value.str "DEBUG")]).config.load_config_dict
        (((Config.init retriesOpts).load_config_dict
          [("RETRIES", Value.int 5)]).config.snapshot)).config.dict
      = [("LEVEL", Value.str "WARN"), ("RETRIES", Value.int 5)] :=
  (c6_snapshot_restore retriesOpts [("RETRIES", Value.int 5)]
    [("RETRIES", Value.int 10), ("LEVEL", Value.str "DEBUG")]
    (by decide) (by decide) (by decide)).2.trans (by decide)

/-- C2: a guard activated — constructed and entered, as by the `with`
statement — on a well-formed state S0 with overrides that all apply: if the
guarded body raises, the registry's mapping is restored to exactly S0
before the error reaches the caller, and the guard neither suppresses nor
translates the failure — the very same error is the one propagating out. -/
theorem c2_override_restores_on_failure (cfg : Config)
    (new_conf : List (String × Value)) (body : Config → OpResult) (e : Err)
    (hwf : cfg.wf = true)
    (henter : (cfg.load_config_dict new_conf).error = Option.none)
    (hbody : ∀ c, (body c).error = Option.some e)
    (hframe : ∀ c, (body c).config.options = c.options ∧
      (body c).config.dict.map Prod.fst = c.dict.map Prod.fst) :
    (cfg.overrideWith new_conf body).error = Option.some e ∧
    (cfg.overrideWith new_conf body).config.dict = cfg.dict := by
  obtain ⟨hnd, hkeys, hvals, hnames⟩ := (Config.wf_iff cfg).1 hwf
  have hr1o : (cfg.load_config_dict new_conf).config.options = cfg.options :=
    Config.load_options _ _
  have hr1k : (cfg.load_config_dict new_conf).config.dict.map Prod.fst
      = cfg.dict.map Prod.fst := Config.load_dict_keys _ _ hwf
  have hrbo : (body (cfg.load_config_dict new_conf).config).config.options = cfg.options := by
    rw [(hframe _).1, hr1o]
  have hrbk : (body (cfg.load_config_dict new_conf).config).config.dict.map Prod.fst
      = cfg.dict.map Prod.fst := by
    rw [(hframe _).2, hr1k]
  have hok : ∀ p ∈ cfg.dict,
      entryOK (body (cfg.load_config_dict new_conf).config).config.options p.1 p.2
        = true := by
    intro p hp
    rw [hrbo]
    exact hvals p hp
  have hxerr : ((body (cfg.load_config_dict new_conf).config).config.load_config_dict
      cfg.dict).error = Option.none := Config.load_ok _ _ hok
  have hxdict : ((body (cfg.load_config_dict new_conf).config).config.load_config_dict
      cfg.dict).config.dict = cfg.dict :=
    Config.load_restore
      (body (cfg.load_config_dict new_conf).config).config.options
      (body (cfg.load_config_dict new_conf).config).config.dict
      cfg.dict hrbk (by rw [hkeys]; exact hnd) hok
  have hrun := Override.runWith_eq (Override.init cfg new_conf) body cfg henter hxerr
  refine ⟨?_, ?_⟩
  · show ((Override.init cfg new_conf).runWith body cfg).error = Option.some e
    rw [hrun]
    exact hbody _
  · show ((Override.init cfg new_conf).runWith body cfg).config.dict = cfg.dict
    rw [hrun]
    exact hxdict

/-- C2 witness: overriding A on a registry with a hook-bearing LOG_FILE and
a raising body: the raised error propagates unchanged and the mapping is
back to its pre-entry state. -/
theorem c2_witness :
    (hookConfig.overrideWith [("A", Value.int 1)] failBody).error
      = Option.some (Err.raised "boom") ∧
    (hookConfig.overrideWith [("A", Value.int 1)] failBody).config.dict = hookConfig.dict :=
  c2_override_restores_on_failure hookConfig [("A", Value.int 1)] failBody
    (Err.raised "boom") (by decide) (by decide) (fun c => rfl) (fun c => ⟨rfl, rfl⟩)

/-- C10: the guard's exit restores by bulk-loading the full snapshot
through the normal write path, so its hook invocations are exactly those
of the snapshot's hook-bearing keys, in order — in particular every
hook-bearing declared setting present in the snapshot has its hook run
again on exit, whether or not it was overridden and whether or not its
restored value differs from the current one. -/
theorem c10_exit_fires_all_hooks (ov : Override) (cfg : Config)
    (hok : ∀ p ∈ ov.initial_conf, entryOK cfg.options p.1 p.2 = true) :
    (ov.exit cfg).events.map HookEvent.name
      = (ov.initial_conf.map Prod.fst).filter (fun k => hookBearing cfg.options k) ∧
    (∀ p ∈ ov.initial_conf, hookBearing cfg.options p.1 = true →
      p.1 ∈ (ov.exit cfg).events.map HookEvent.name) := by
  have h1 : (ov.exit cfg).events.map HookEvent.name
      = (ov.initial_conf.map Prod.fst).filter (fun k => hookBearing cfg.options k) :=
    Config.load_events cfg ov.initial_conf hok
  refine ⟨h1, fun p hp hb => ?_⟩
  rw [h1, List.mem_filter]
  exact ⟨List.mem_map.2 ⟨p, hp, rfl⟩, hb⟩

/-- C10 witness: a guard overriding only A, exited on the entered state:
the hook of LOG_FILE — never overridden, restored to the value it already
has — fires again, and it is the only hook fired. -/
theorem c10_witness :
    ((Override.init hookConfig [("A", Value.int 1)]).exit
        ((Override.init hookConfig [("A", Value.int 1)]).enter hookConfig).config).events.map
        HookEvent.name = ["LOG_FILE"] ∧
    "LOG_FILE" ∈ ((Override.init hookConfig [("A", Value.int 1)]).exit
        ((Override.init hookConfig [("A", Value.int 1)]).enter hookConfig).config).events.map
        HookEvent.name := by
  have h := c10_exit_fires_all_hooks (Override.init hookConfig [("A", Value.int 1)])
    ((Override.init hookConfig [("A", Value.int 1)]).enter hookConfig).config (by decide)
  exact ⟨h.1.trans (by decide),
    h.2 ("LOG_FILE", Value.str "pyphi.log") (by decide) (by decide)⟩

/-- C1 divergence: `_override.__init__` captures the restoration snapshot
at construction time, not at activation. A decorator guard built while
A = 0, invoked after A was set to 2, completes without error but leaves
A = 0 — the decoration-time value — although the registry held A = 2
immediately before that invocation. -/
theorem c1_decorator_restores_construction_state :
    (aConfig.setattr "A" (Value.int 2)).config.dict = [("A", Value.int 2)] ∧
    (Override.init aConfig [("A", Value.int 1)]).initial_conf = [("A", Value.int 0)] ∧
    ((Override.init aConfig [("A", Value.int 1)]).callWrapped idBody
        (aConfig.setattr "A" (Value.int 2)).config).error = Option.none ∧
    ((Override.init aConfig [("A", Value.int 1)]).callWrapped idBody
        (aConfig.setattr "A" (Value.int 2)).config).config.dict
      = [("A", Value.int 0)] := by decide

/-- C7 counterexample: `Config.snapshot` is `copy(self.__dict__)`, a
shallow copy, so an in-place mutation of a dict-valued setting's object is
visible through the snapshot: the value the snapshot holds for
MONGODB_CONFIG changes from the captured one to the mutated one. -/
theorem c7_counterexample :
    snapValue mongoRef.snapshot mongoHeap "MONGODB_CONFIG"
      = Option.some (Value.dict [("port", Prim.int 27017)]) ∧
    snapValue mongoRef.snapshot
        (mongoRef.mutateInPlace mongoHeap "MONGODB_CONFIG"
          (Value.dict [("port", Prim.int 1234)])) "MONGODB_CONFIG"
      = Option.some (Value.dict [("port", Prim.int 1234)]) := by decide

/-- C7 (amended): the snapshot is an independent copy of the
name-to-object mapping only — it is unaffected by subsequent rebinding
writes (the registry's normal write path, which binds a name to a fresh
object: exactly what restore needs to round-trip), while the live registry
sees the newly bound object; in-place mutation of a shared value object,
however, remains visible through it. -/
theorem c7_snapshot_shallow (cfg : RefConfig) (heap : List (Nat × Value))
    (k k' : String) (r : Nat) (v : Value)
    (hfresh : ∀ p ∈ cfg.snapshot, p.2 ≠ r) :
    snapValue cfg.snapshot (Assoc.set heap r v) k' = snapValue cfg.snapshot heap k' ∧
    snapValue (cfg.rebind k r).dict (Assoc.set heap r v) k = Option.some v := by
  constructor
  · unfold snapValue
    cases hq : Assoc.get? cfg.snapshot k' with
    | none => rfl
    | some r' =>
      exact Assoc.get?_set_ne heap r r' v (hfresh (k', r') (Assoc.get?_mem hq))
  · unfold snapValue RefConfig.rebind
    simp [Assoc.get?_set_self]

/-- C7 witness for the amended claim: rebinding MONGODB_CONFIG to a fresh
object leaves the snapshot's held value unchanged while the registry sees
the new object. -/
theorem c7_witness :
    snapValue mongoRef.snapshot (Assoc.set mongoHeap 1 (Value.str "fresh")) "MONGODB_CONFIG"
      = snapValue mongoRef.snapshot mongoHeap "MONGODB_CONFIG" ∧
    snapValue (mongoRef.rebind "MONGODB_CONFIG" 1).dict
        (Assoc.set mongoHeap 1 (Value.str "fresh")) "MONGODB_CONFIG"
      = Option.some (Value.str "fresh") :=
  c7_snapshot_shallow mongoRef mongoHeap "MONGODB_CONFIG" "MONGODB_CONFIG" 1
    (Value.str "fresh") (by decide)

/-- C9 counterexample: name binding is a plain assignment with no guard: a
second binding of an already-bound descriptor succeeds and silently
reassigns the name, instead of being a fatal error. -/
theorem c9_counterexample :
    ((({ default := Value.int 0 } : ConfOption).bindName "A").bindName "B").name
      = Option.some "B" ∧
    ((({ default := Value.int 0 } : ConfOption).bindName "A").bindName "B")
      = { default := Value.int 0, name := Option.some "B" } := by decide

/-- C9 (amended): binding a descriptor's field name is unguarded: a second
binding always succeeds and overwrites the previous name while leaving
the rest of the descriptor unchanged (so each registry construction simply
rebinds every descriptor). -/
theorem c9_bind_overwrites (o : ConfOption) (n n' : String) :
    ((o.bindName n).bindName n').name = Option.some n' ∧
    (o.bindName n).name = Option.some n ∧
    ((o.bindName n).bindName n').default = o.default ∧
    ((o.bindName n).bindName n').values = o.values ∧
    ((o.bindName n).bindName n').on_change = o.on_change :=
  ⟨rfl, rfl, rfl, rfl, rfl⟩
